import Mathlib

/-!
A verification development for `video_frame_describer.py`: the frame
sampling generator `iter_frames`, the description pipeline generator
`describe_video_frames`, the CLI defaults from `parse_args`, and the
output lines produced by `main`.

Modelling conventions: Python floats are exact rationals; a raw frame
(`cv2.Mat`) is identified by its position in the underlying stream;
each generator is an explicit state machine with one suspension point
per `yield`.  A pull resumes the body until the next `yield`, the final
return, or an exception.  Closing a suspended generator (what CPython
does when the consumer abandons iteration, or when the pipeline's
`for` loop is torn down by a propagating exception) raises
`GeneratorExit` at the suspension point; since `iter_frames` has no
`try/finally`, statements after the `while` loop do not run in that
case.
-/

namespace VideoFrameDescriber

/-- A video file as seen through `cv2.VideoCapture`: whether the file
can be opened, the native frame rate reported by `CAP_PROP_FPS`, the
number of decodable frames (a `capture.read()` at position `p` succeeds
exactly when `p < numFrames`), and the opaque pixel data of the frame
at each position. -/
structure Video where
  openable : Bool
  fps : ℚ
  numFrames : Nat
  frameData : Nat → Nat

/-- Python `int(q)` on a float: truncation toward zero, computed on
the reduced fraction. -/
def pyInt (q : ℚ) : Int :=
  q.num.tdiv q.den

/-- The product of two exact rationals, written executably on
numerators and denominators; equal to `fps * interval_seconds` by
`pyFloatMul_eq` below. -/
def pyFloatMul (a b : ℚ) : ℚ :=
  mkRat (a.num * b.num) (a.den * b.den)

/-- Line 27: `frame_interval = max(int(fps * interval_seconds), 1)`. -/
def frame_interval (fps interval_seconds : ℚ) : Int :=
  max (pyInt (pyFloatMul fps interval_seconds)) 1

/-- The stride of a given video and interval, as a natural number
(`frame_interval` is always ≥ 1, so `toNat` loses nothing). -/
def strideOf (v : Video) (interval_seconds : ℚ) : Nat :=
  (frame_interval v.fps interval_seconds).toNat

/-- The two `ValueError`s `iter_frames` can raise while opening
(lines 20-25): the capture cannot be opened, or `CAP_PROP_FPS` is
not positive. -/
inductive SamplerError
  | cannotOpen
  | fpsUndetermined
deriving DecidableEq

/-- One `(frame_index, timestamp, frame)` triple yielded by
`iter_frames` (line 36). -/
structure SampledFrame where
  index : Nat
  timestamp : ℚ
  frame : Nat
deriving DecidableEq

/-- Program counter of the `iter_frames` generator: not yet resumed,
suspended at the `yield` of line 36 (recording the `frame_index` just
yielded), or finished (normal return, exception, or closed). -/
inductive IterPC
  | notStarted
  | atYield (frameIndex : Nat)
  | finished
deriving DecidableEq

/-- State of one `iter_frames` generator: its program counter, whether
`cv2.VideoCapture(video_path)` has been constructed yet (lines 19-25
run on the first resume, not at call time), and whether
`capture.release()` (line 42) has executed. -/
structure IterState where
  pc : IterPC
  openAttempted : Bool
  released : Bool
deriving DecidableEq

/-- A freshly created (not yet resumed) `iter_frames` generator. -/
def iterStart : IterState := ⟨.notStarted, false, false⟩

/-- The triple yielded for frame position `i` (lines 35-36):
`timestamp = frame_index / fps` and the raw frame read at `i`. -/
def mkSample (v : Video) (i : Nat) : SampledFrame :=
  ⟨i, (i : ℚ) / v.fps, v.frameData i⟩

/-- One round of the `while True` body (lines 30-36) with the read
position at `m`: `capture.read()` succeeds iff `m < numFrames`, in
which case the generator suspends at the `yield`; otherwise the loop
breaks and `capture.release()` (line 42) runs. -/
def readStep (v : Video) (s : IterState) (m : Nat) :
    Option SampledFrame × IterState :=
  if m < v.numFrames then
    (some (mkSample v m), { s with pc := .atYield m })
  else
    (none, { s with pc := .finished, released := true })

/-- Resume the `iter_frames` generator once (one `next()` call).
Returns the yielded triple (`none` = `StopIteration`), or the
`ValueError` of lines 20-25, together with the new generator state.
On the first resume the capture is opened and validated and the loop
entered at position `0`; on a later resume the `capture.set` /
`frame_index += frame_interval` of lines 39-40 run and the loop reads
at `frameIndex + stride`. -/
def pullIter (v : Video) (interval_seconds : ℚ) (s : IterState) :
    Except SamplerError (Option SampledFrame) × IterState :=
  match s.pc with
  | .finished => (.ok none, s)
  | .notStarted =>
    let s1 := { s with openAttempted := true }
    if v.openable = false then
      (.error .cannotOpen, { s1 with pc := .finished })
    else if v.fps ≤ 0 then
      (.error .fpsUndetermined, { s1 with pc := .finished })
    else
      let r := readStep v s1 0
      (.ok r.1, r.2)
  | .atYield f =>
    let r := readStep v s (f + strideOf v interval_seconds)
    (.ok r.1, r.2)

/-- Close the generator (CPython's `GeneratorExit`): a suspended or
unstarted generator becomes finished, but the body has no
`try/finally`, so `capture.release()` does not run and `released`
keeps its old value. -/
def closeIter (s : IterState) : IterState :=
  match s.pc with
  | .atYield _ => { s with pc := .finished }
  | .notStarted => { s with pc := .finished }
  | .finished => s

/-- Drive `iter_frames` with up to `fuel` pulls, collecting the
yielded triples until the generator stops, raises, or fuel runs out. -/
def collectPulls (v : Video) (interval_seconds : ℚ) :
    Nat → IterState → List SampledFrame × IterState
  | 0, s => ([], s)
  | fuel + 1, s =>
    match pullIter v interval_seconds s with
    | (.ok (some f), s') =>
      let r := collectPulls v interval_seconds fuel s'
      (f :: r.1, r.2)
    | (_, s') => ([], s')

/-- Everything `iter_frames` yields on a full run: the generator
driven to exhaustion.  Each yield consumes one pull, one final pull
hits the failing read, and at most `numFrames` frames can be yielded,
so `numFrames + 1` pulls always suffice. -/
def iterFramesList (v : Video) (interval_seconds : ℚ) : List SampledFrame :=
  (collectPulls v interval_seconds (v.numFrames + 1) iterStart).1

/-- One record produced by `describe_video_frames` (line 91). -/
structure FrameDescription where
  index : Nat
  timestamp : ℚ
  description : String
deriving DecidableEq

/-- What one resume of the `describe_video_frames` generator can do:
yield a record, stop normally, re-raise the sampler's `ValueError`,
or re-raise the describer's failure. -/
inductive PipeEvent
  | yielded (d : FrameDescription)
  | stopped
  | samplerErr (e : SamplerError)
  | describeErr (e : String)
deriving DecidableEq

/-- Program counter of the `describe_video_frames` generator. -/
inductive PipePC
  | notStarted
  | suspended
  | finished
deriving DecidableEq

/-- State of one `describe_video_frames` generator: the state of the
`iter_frames` generator its `for` loop drives, and its own program
counter. -/
structure PipeState where
  inner : IterState
  pc : PipePC
deriving DecidableEq

/-- A freshly created (not yet resumed) pipeline generator.  Creating
it also creates the `iter_frames` generator object, which does no work
until first pulled. -/
def pipelineStart : PipeState := ⟨iterStart, .notStarted⟩

/-- Result of resuming the pipeline once: the event, the frame passed
to the describer during this resume (if any), and the next state. -/
structure PullResult where
  event : PipeEvent
  call : Option SampledFrame
  state : PipeState
deriving DecidableEq

/-- Resume `describe_video_frames` once (lines 89-91): pull one triple
from `iter_frames`; a `ValueError` from it propagates; `StopIteration`
ends the pipeline normally (by then `iter_frames` has already run its
`release`); otherwise `describe_frame` is called synchronously on the
frame.  If the describer fails, the exception propagates out of the
pipeline and the suspended `iter_frames` generator is torn down via
`GeneratorExit` (`closeIter` — its `release` line is skipped); on
success one `FrameDescription` with the index and timestamp copied
unchanged is yielded. -/
def pullPipe (v : Video) (interval_seconds : ℚ)
    (describe_fn : Nat → Except String String) (s : PipeState) : PullResult :=
  match s.pc with
  | .finished => ⟨.stopped, none, s⟩
  | _ =>
    match pullIter v interval_seconds s.inner with
    | (.error e, is) => ⟨.samplerErr e, none, ⟨is, .finished⟩⟩
    | (.ok none, is) => ⟨.stopped, none, ⟨is, .finished⟩⟩
    | (.ok (some f), is) =>
      match describe_fn f.frame with
      | .error e => ⟨.describeErr e, some f, ⟨closeIter is, .finished⟩⟩
      | .ok t => ⟨.yielded ⟨f.index, f.timestamp, t⟩, some f, ⟨is, .suspended⟩⟩

/-- The consumer abandons iteration: the pipeline generator is closed;
its `for` loop's `iter_frames` generator is then also torn down via
`GeneratorExit`, which skips `capture.release()`. -/
def closePipe (s : PipeState) : PipeState :=
  match s.pc with
  | .suspended => ⟨closeIter s.inner, .finished⟩
  | .notStarted => ⟨s.inner, .finished⟩
  | .finished => s

/-- Observables of a full pipeline run: the records yielded in order,
the frames passed to the describer in order, and how the run ended. -/
structure PipeRun where
  descs : List FrameDescription
  calls : List SampledFrame
  event : PipeEvent
deriving DecidableEq

/-- Drive the pipeline with up to `fuel` pulls, collecting the yielded
records and the describer calls until it stops, raises, or fuel runs
out. -/
def runPipe (v : Video) (interval_seconds : ℚ)
    (describe_fn : Nat → Except String String) :
    Nat → PipeState → PipeRun × PipeState
  | 0, s => (⟨[], [], .stopped⟩, s)
  | fuel + 1, s =>
    let r := pullPipe v interval_seconds describe_fn s
    match r.event with
    | .yielded d =>
      let rest := runPipe v interval_seconds describe_fn fuel r.state
      (⟨d :: rest.1.descs, r.call.toList ++ rest.1.calls, rest.1.event⟩, rest.2)
    | ev => (⟨[], r.call.toList, ev⟩, r.state)

/-- Reference recursion for the pipeline's observable behaviour over a
given list of sampled frames: one describer call per frame, one record
per successful call, stop at the first failure. -/
def processFrames (describe_fn : Nat → Except String String) :
    List SampledFrame → PipeRun
  | [] => ⟨[], [], .stopped⟩
  | f :: fs =>
    match describe_fn f.frame with
    | .error e => ⟨[], [f], .describeErr e⟩
    | .ok t =>
      let r := processFrames describe_fn fs
      ⟨⟨f.index, f.timestamp, t⟩ :: r.descs, f :: r.calls, r.event⟩

/-- The sampler's yields in closed form: the arithmetic progression
`m, m + S, m + 2S, …` of all positions `< numFrames`, each paired with
its timestamp and frame data.  `(numFrames - m + S - 1) / S` is
`ceil((numFrames - m) / S)`. -/
def closedSamples (v : Video) (S m : Nat) : List SampledFrame :=
  (List.range ((v.numFrames - m + S - 1) / S)).map (fun j => mkSample v (m + j * S))

/-- Python `round(x)` to the nearest integer, ties to even (the model
of `round` on our exact-rational floats), computed on the reduced
fraction: with `f = ⌊x⌋`, the fractional part `x - f` is compared to
`1/2` by comparing `2 * (num - f * den)` with `den`. -/
def roundHalfEven (x : ℚ) : ℤ :=
  let f := x.num.fdiv x.den
  let r2 := 2 * (x.num - f * x.den)
  if r2 < (x.den : Int) then f
  else if (x.den : Int) < r2 then f + 1
  else if f % 2 = 0 then f else f + 1

/-- Python's `str()` of the float `m / 100` (the value
`round(timestamp, 2)` in `main`): shortest decimal form, trailing
zeros dropped but at least one digit after the point. -/
def render2 (m : ℤ) : String :=
  (if m < 0 then "-" else "") ++
    (let n := m.natAbs
     if n % 100 = 0 then toString (n / 100) ++ ".0"
     else if n % 100 % 10 = 0 then toString (n / 100) ++ "." ++ toString (n % 100 / 10)
     else toString (n / 100) ++ "." ++
       (if n % 100 < 10 then "0" else "") ++ toString (n % 100))

/-- What `main` interpolates for the timestamp:
`round(description.timestamp, 2)` (line 130) printed with Python's
default float formatting. -/
def formatTimestamp (q : ℚ) : String :=
  render2 (roundHalfEven (pyFloatMul q 100))

/-- The line `main` prints for one record (line 131). -/
def frameLine (d : FrameDescription) : String :=
  "Frame " ++ toString d.index ++ " (@ " ++ formatTimestamp d.timestamp ++
    "s): " ++ d.description

/-- The timestamp as the spec's words describe it: rendered with
exactly two decimal places. -/
def twoDecimalString (q : ℚ) : String :=
  (if roundHalfEven (pyFloatMul q 100) < 0 then "-" else "") ++
    (let n := (roundHalfEven (pyFloatMul q 100)).natAbs
     toString (n / 100) ++ "." ++ (if n % 100 < 10 then "0" else "") ++ toString (n % 100))

/-- The output line as the claim states it (two-decimal timestamp),
for comparison with `frameLine`. -/
def frameLineSpec (d : FrameDescription) : String :=
  "Frame " ++ toString d.index ++ " (@ " ++ twoDecimalString d.timestamp ++
    "s): " ++ d.description

/-- Everything `main` has printed after `fuel` pulls of the pipeline:
one line per record, emitted as each arrives (lines 123-131). -/
def main_output (v : Video) (interval_seconds : ℚ)
    (describe_fn : Nat → Except String String) (fuel : Nat) : List String :=
  ((runPipe v interval_seconds describe_fn fuel pipelineStart).1.descs).map frameLine

/-- `parse_args`: default of `--interval` (`-t`) (line 101). -/
def parse_args_interval_default : ℚ := 1

/-- `parse_args`: default of `--model` (`-m`) (line 107). -/
def parse_args_model_default : String := "gpt-4.1-mini"

/-- `parse_args`: default of `--prompt` (`-p`) (line 113). -/
def parse_args_prompt_default : String := "Descreva a imagem de forma concisa."

/-- The prompt `describe_video_frames` uses: the caller's, or the
default of line 73 when none is passed. -/
def describe_video_frames_prompt (prompt : Option String) : String :=
  prompt.getD "Descreva a imagem de forma concisa."

/-- The model `describe_video_frames` uses: the caller's, or the
default of line 74 when none is passed. -/
def describe_video_frames_model (model : Option String) : String :=
  model.getD "gpt-4.1-mini"

/-- Decidable equality for `Except`, so that concrete describer
results can be checked by evaluation. -/
instance {e a : Type} [DecidableEq e] [DecidableEq a] : DecidableEq (Except e a) :=
  fun x y =>
    match x, y with
    | .error u, .error w =>
      if h : u = w then .isTrue (h ▸ rfl) else .isFalse (fun hc => h (Except.error.inj hc))
    | .ok u, .ok w =>
      if h : u = w then .isTrue (h ▸ rfl) else .isFalse (fun hc => h (Except.ok.inj hc))
    | .error _, .ok _ => .isFalse (fun hc => Except.noConfusion hc)
    | .ok _, .error _ => .isFalse (fun hc => Except.noConfusion hc)

/-- Demo source: 10 seconds at 2 fps — 20 decodable frames (the spec's
own scenario). -/
def vDemo : Video := ⟨true, 2, 20, fun i => i⟩

/-- Demo source: 3 decodable frames at 1 fps. -/
def vSmall : Video := ⟨true, 1, 3, fun i => i⟩

/-- Demo source that cannot be opened. -/
def vBad : Video := ⟨false, 30, 10, fun i => i⟩

/-- A describer that always succeeds. -/
def fnOk : Nat → Except String String := fun n => .ok (toString n)

/-- The text `fnOk` produces for each frame. -/
def gOk : Nat → String := fun n => toString n

/-- A describer that fails on frame 1 (the second sampled frame when
the stride is 1). -/
def fnFail1 : Nat → Except String String :=
  fun n => if n = 1 then .error "boom" else .ok (toString n)

/-- A describer that fails immediately. -/
def fnFail0 : Nat → Except String String := fun _ => .error "boom"

/-! ### The stride is positive, and the sampler's closed form -/

theorem pyFloatMul_eq (a b : ℚ) : pyFloatMul a b = a * b :=
  (Rat.mul_eq_mkRat a b).symm

theorem pyInt_eq_floor (q : ℚ) (h : 0 ≤ q) : pyInt q = ⌊q⌋ := by
  rw [Rat.floor_def]
  exact Int.tdiv_eq_ediv (Rat.num_nonneg.mpr h) (by positivity)

theorem strideOf_pos (v : Video) (interval_seconds : ℚ) :
    1 ≤ strideOf v interval_seconds := by
  have h := le_max_right (pyInt (v.fps * interval_seconds)) (1 : ℤ)
  unfold strideOf frame_interval
  omega

theorem closedSamples_nil (v : Video) (S m : Nat) (hS : 1 ≤ S)
    (hm : ¬ m < v.numFrames) : closedSamples v S m = [] := by
  unfold closedSamples
  have h0 : (v.numFrames - m + S - 1) / S = 0 := Nat.div_eq_of_lt (by omega)
  rw [h0]
  rfl

theorem closedSamples_cons (v : Video) (S m : Nat) (hS : 1 ≤ S)
    (hm : m < v.numFrames) :
    closedSamples v S m = mkSample v m :: closedSamples v S (m + S) := by
  unfold closedSamples
  have hc : (v.numFrames - m + S - 1) / S = (v.numFrames - (m + S) + S - 1) / S + 1 := by
    by_cases h : m + S < v.numFrames
    · have he : v.numFrames - m + S - 1 = (v.numFrames - (m + S) + S - 1) + S := by omega
      rw [he, Nat.add_div_right _ (by omega)]
    · have h1 : (v.numFrames - (m + S) + S - 1) / S = 0 := Nat.div_eq_of_lt (by omega)
      have h2 : (v.numFrames - m + S - 1) / S = 1 :=
        Nat.div_eq_of_lt_le (by omega) (by omega)
      omega
  rw [hc, List.range_succ_eq_map, List.map_cons, List.map_map]
  congr 1
  · simp
  · apply List.map_congr_left
    intro j _
    simp only [Function.comp_apply, Nat.succ_mul]
    congr 1
    omega

theorem closedSamples_length (v : Video) (S m : Nat) :
    (closedSamples v S m).length = (v.numFrames - m + S - 1) / S := by
  simp [closedSamples]

/-! ### Bridging the `iter_frames` state machine to the closed form -/

theorem collectPulls_atYield (v : Video) (itv : ℚ) :
    ∀ fuel f o r, v.numFrames ≤ f + strideOf v itv * fuel → 1 ≤ fuel →
      (collectPulls v itv fuel ⟨.atYield f, o, r⟩).1 =
        closedSamples v (strideOf v itv) (f + strideOf v itv) := by
  intro fuel
  induction fuel with
  | zero => intro f o r _ h1; exact absurd h1 (by omega)
  | succ fuel ih =>
    intro f o r hH _
    set S := strideOf v itv with hSdef
    have hS : 1 ≤ S := strideOf_pos v itv
    have hmul : S * (fuel + 1) = S * fuel + S := Nat.mul_succ S fuel
    by_cases hm : f + S < v.numFrames
    · have hfuel1 : 1 ≤ fuel := by
        rcases Nat.eq_zero_or_pos fuel with h0 | h0
        · subst h0; exact absurd hH (by omega)
        · exact h0
      have hpull : pullIter v itv ⟨.atYield f, o, r⟩ =
          (.ok (some (mkSample v (f + S))), ⟨.atYield (f + S), o, r⟩) := by
        simp [pullIter, readStep, hm]
      rw [closedSamples_cons v S _ hS hm]
      simp only [collectPulls, hpull]
      rw [ih (f + S) o r (by omega) hfuel1]
    · have hpull : pullIter v itv ⟨.atYield f, o, r⟩ =
          (.ok none, ⟨.finished, o, true⟩) := by
        simp [pullIter, readStep, hm]
      rw [closedSamples_nil v S _ hS hm]
      simp only [collectPulls, hpull]

theorem iterFramesList_eq (v : Video) (itv : ℚ)
    (h₁ : v.openable = true) (h₂ : 0 < v.fps) :
    iterFramesList v itv = closedSamples v (strideOf v itv) 0 := by
  set S := strideOf v itv with hSdef
  have hS : 1 ≤ S := strideOf_pos v itv
  unfold iterFramesList
  by_cases hm : 0 < v.numFrames
  · have hpull : pullIter v itv iterStart =
        (.ok (some (mkSample v 0)), ⟨.atYield 0, true, false⟩) := by
      simp [pullIter, iterStart, readStep, h₁, hm, not_le.mpr h₂]
    have hNS : v.numFrames ≤ strideOf v itv * v.numFrames :=
      Nat.le_mul_of_pos_left v.numFrames (strideOf_pos v itv)
    simp only [collectPulls, hpull]
    rw [collectPulls_atYield v itv v.numFrames 0 true false (by omega) (by omega)]
    rw [closedSamples_cons v S 0 hS hm]
  · have hpull : pullIter v itv iterStart = (.ok none, ⟨.finished, true, true⟩) := by
      simp [pullIter, iterStart, readStep, h₁, hm, not_le.mpr h₂]
    simp only [collectPulls, hpull]
    rw [closedSamples_nil v S 0 hS (by omega)]

theorem iterFramesList_length_le (v : Video) (itv : ℚ)
    (h₁ : v.openable = true) (h₂ : 0 < v.fps) :
    (iterFramesList v itv).length ≤ v.numFrames := by
  rw [iterFramesList_eq v itv h₁ h₂, closedSamples_length]
  set S := strideOf v itv with hSdef
  have hS : 1 ≤ S := strideOf_pos v itv
  have hmul : v.numFrames ≤ v.numFrames * S :=
    Nat.le_mul_of_pos_right _ (by omega)
  have hexp : (v.numFrames + 1) * S = v.numFrames * S + S := Nat.succ_mul _ _
  have hlt : v.numFrames - 0 + S - 1 < (v.numFrames + 1) * S := by omega
  have := (Nat.div_lt_iff_lt_mul (show 0 < S by omega)).mpr hlt
  omega

/-! ### Bridging the pipeline state machine to `processFrames` -/

theorem runPipe_atYield (v : Video) (itv : ℚ) (fn : Nat → Except String String) :
    ∀ fuel f o r, v.numFrames ≤ f + strideOf v itv * fuel → 1 ≤ fuel →
      (runPipe v itv fn fuel ⟨⟨.atYield f, o, r⟩, .suspended⟩).1 =
        processFrames fn (closedSamples v (strideOf v itv) (f + strideOf v itv)) := by
  intro fuel
  induction fuel with
  | zero => intro f o r _ h1; exact absurd h1 (by omega)
  | succ fuel ih =>
    intro f o r hH _
    set S := strideOf v itv with hSdef
    have hS : 1 ≤ S := strideOf_pos v itv
    have hmul : S * (fuel + 1) = S * fuel + S := Nat.mul_succ S fuel
    by_cases hm : f + S < v.numFrames
    · have hfuel1 : 1 ≤ fuel := by
        rcases Nat.eq_zero_or_pos fuel with h0 | h0
        · subst h0; exact absurd hH (by omega)
        · exact h0
      have hpull : pullIter v itv ⟨.atYield f, o, r⟩ =
          (.ok (some (mkSample v (f + S))), ⟨.atYield (f + S), o, r⟩) := by
        simp [pullIter, readStep, hm]
      rw [closedSamples_cons v S _ hS hm]
      rcases hfn : fn (mkSample v (f + S)).frame with e | t
      · simp only [runPipe, pullPipe, hpull, hfn, processFrames]
        rfl
      · simp only [runPipe, pullPipe, hpull, hfn, processFrames]
        rw [ih (f + S) o r (by omega) hfuel1]
        simp
    · have hpull : pullIter v itv ⟨.atYield f, o, r⟩ =
          (.ok none, ⟨.finished, o, true⟩) := by
        simp [pullIter, readStep, hm]
      rw [closedSamples_nil v S _ hS hm]
      simp only [runPipe, pullPipe, hpull, processFrames]
      rfl

theorem runPipe_start (v : Video) (itv : ℚ) (fn : Nat → Except String String)
    (h₁ : v.openable = true) (h₂ : 0 < v.fps) :
    (runPipe v itv fn (v.numFrames + 1) pipelineStart).1 =
      processFrames fn (iterFramesList v itv) := by
  rw [iterFramesList_eq v itv h₁ h₂]
  set S := strideOf v itv with hSdef
  have hS : 1 ≤ S := strideOf_pos v itv
  by_cases hm : 0 < v.numFrames
  · have hpull : pullIter v itv iterStart =
        (.ok (some (mkSample v 0)), ⟨.atYield 0, true, false⟩) := by
      simp [pullIter, iterStart, readStep, h₁, hm, not_le.mpr h₂]
    have hNS : v.numFrames ≤ strideOf v itv * v.numFrames :=
      Nat.le_mul_of_pos_left v.numFrames (strideOf_pos v itv)
    rw [closedSamples_cons v S 0 hS hm]
    rcases hfn : fn (mkSample v 0).frame with e | t
    · simp only [runPipe, pullPipe, pipelineStart, hpull, hfn, processFrames]
      rfl
    · simp only [runPipe, pullPipe, pipelineStart, hpull, hfn, processFrames]
      rw [runPipe_atYield v itv fn v.numFrames 0 true false (by omega) (by omega)]
      simp
  · have hpull : pullIter v itv iterStart = (.ok none, ⟨.finished, true, true⟩) := by
      simp [pullIter, iterStart, readStep, h₁, hm, not_le.mpr h₂]
    rw [closedSamples_nil v S 0 hS (by omega)]
    simp only [runPipe, pullPipe, pipelineStart, hpull, processFrames]
    rfl

/-! ### Pure facts about `processFrames` -/

theorem processFrames_all_ok (fn : Nat → Except String String) (g : Nat → String) :
    ∀ l : List SampledFrame, (∀ f ∈ l, fn f.frame = Except.ok (g f.frame)) →
      processFrames fn l =
        ⟨l.map (fun f => ⟨f.index, f.timestamp, g f.frame⟩), l, .stopped⟩ := by
  intro l
  induction l with
  | nil => intro _; rfl
  | cons f fs ih =>
    intro h
    have hf := h f (by simp)
    simp [processFrames, hf, ih (fun x hx => h x (by simp [hx]))]

theorem processFrames_ok_append (fn : Nat → Except String String) (g : Nat → String) :
    ∀ pre l : List SampledFrame, (∀ f ∈ pre, fn f.frame = Except.ok (g f.frame)) →
      processFrames fn (pre ++ l) =
        ⟨pre.map (fun f => ⟨f.index, f.timestamp, g f.frame⟩) ++ (processFrames fn l).descs,
         pre ++ (processFrames fn l).calls,
         (processFrames fn l).event⟩ := by
  intro pre
  induction pre with
  | nil => intro l _; simp
  | cons f fs ih =>
    intro l h
    have hf := h f (by simp)
    simp [processFrames, hf, ih l (fun x hx => h x (by simp [hx]))]

/-! ### Partial runs with a always-successful describer (incrementality) -/

theorem runPipe_take_atYield (v : Video) (itv : ℚ)
    (fn : Nat → Except String String) (g : Nat → String) :
    ∀ k f o r,
      (∀ x ∈ closedSamples v (strideOf v itv) (f + strideOf v itv),
        fn x.frame = Except.ok (g x.frame)) →
      k ≤ (closedSamples v (strideOf v itv) (f + strideOf v itv)).length →
      (runPipe v itv fn k ⟨⟨.atYield f, o, r⟩, .suspended⟩).1.descs =
        ((closedSamples v (strideOf v itv) (f + strideOf v itv)).take k).map
          (fun x => ⟨x.index, x.timestamp, g x.frame⟩) := by
  intro k
  induction k with
  | zero => intro f o r _ _; simp [runPipe]
  | succ k ih =>
    intro f o r hok hk
    set S := strideOf v itv with hSdef
    have hS : 1 ≤ S := strideOf_pos v itv
    have hm : f + S < v.numFrames := by
      by_contra hc
      rw [closedSamples_nil v S _ hS hc] at hk
      simp at hk
    rw [closedSamples_cons v S _ hS hm] at hok hk ⊢
    have hpull : pullIter v itv ⟨.atYield f, o, r⟩ =
        (.ok (some (mkSample v (f + S))), ⟨.atYield (f + S), o, r⟩) := by
      simp [pullIter, readStep, hm]
    have hfn := hok (mkSample v (f + S)) (by simp)
    simp only [runPipe, pullPipe, hpull, hfn, List.take_succ_cons, List.map_cons]
    rw [ih (f + S) o r (fun x hx => hok x (List.mem_cons_of_mem _ hx))
        (by simp at hk; omega)]

theorem runPipe_take_start (v : Video) (itv : ℚ)
    (fn : Nat → Except String String) (g : Nat → String)
    (h₁ : v.openable = true) (h₂ : 0 < v.fps)
    (hok : ∀ x ∈ closedSamples v (strideOf v itv) 0, fn x.frame = Except.ok (g x.frame)) :
    ∀ k, k ≤ (closedSamples v (strideOf v itv) 0).length →
      (runPipe v itv fn k pipelineStart).1.descs =
        ((closedSamples v (strideOf v itv) 0).take k).map
          (fun x => ⟨x.index, x.timestamp, g x.frame⟩) := by
  intro k hk
  have hS : 1 ≤ strideOf v itv := strideOf_pos v itv
  cases k with
  | zero => simp [runPipe]
  | succ k =>
    have hm : 0 < v.numFrames := by
      by_contra hc
      rw [closedSamples_nil v (strideOf v itv) 0 hS (by omega)] at hk
      simp at hk
    rw [closedSamples_cons v (strideOf v itv) 0 hS hm] at hok hk ⊢
    have hpull : pullIter v itv iterStart =
        (.ok (some (mkSample v 0)), ⟨.atYield 0, true, false⟩) := by
      simp [pullIter, iterStart, readStep, h₁, hm, not_le.mpr h₂]
    have hfn := hok (mkSample v 0) (by simp)
    simp only [runPipe, pullPipe, pipelineStart, hpull, hfn, List.take_succ_cons,
      List.map_cons]
    rw [runPipe_take_atYield v itv fn g k 0 true false
        (fun x hx => hok x (List.mem_cons_of_mem _ hx))
        (by simp only [List.length_cons] at hk; omega)]

/-! ### The claims -/

/-- Claim C1: for every positive native frame rate and every
`interval_seconds ≥ 0`, the stride computed by `iter_frames` equals
`max(floor(native_frame_rate * interval_seconds), 1)`, and is an
integer ≥ 1 (never 0), even when `interval_seconds` is smaller than
one native frame period. -/
theorem stride_spec (fps interval_seconds : ℚ)
    (h₁ : 0 < fps) (h₂ : 0 ≤ interval_seconds) :
    frame_interval fps interval_seconds = max ⌊fps * interval_seconds⌋ 1 ∧
    1 ≤ frame_interval fps interval_seconds := by
  have hq : 0 ≤ fps * interval_seconds := mul_nonneg h₁.le h₂
  refine ⟨?_, ?_⟩ <;> unfold frame_interval
  · rw [pyFloatMul_eq, pyInt_eq_floor _ hq]
  · exact le_max_right _ _

/-- Concrete check of `stride_spec`: `fps = 3`, `interval = 1/2`
(an interval shorter than one frame period still gives stride 1). -/
theorem stride_spec_witness :
    (0 : ℚ) < 3 ∧ (0 : ℚ) ≤ 1/2 ∧
      (frame_interval 3 (1/2) = max ⌊(3 : ℚ) * (1/2)⌋ 1 ∧
       1 ≤ frame_interval 3 (1/2)) :=
  ⟨by norm_num, by norm_num, stride_spec 3 (1/2) (by norm_num) (by norm_num)⟩

/-- Claim C2: for a source with exactly `numFrames` decodable frames
and computed stride `S`, `iter_frames` yields exactly
`ceil(numFrames / S) = (numFrames + S - 1) / S` elements, whose
indices are `0, S, 2S, …`, strictly increasing, each `< numFrames`. -/
theorem iter_frames_yields (v : Video) (interval_seconds : ℚ)
    (h₁ : v.openable = true) (h₂ : 0 < v.fps) :
    (iterFramesList v interval_seconds).length =
      (v.numFrames + strideOf v interval_seconds - 1) / strideOf v interval_seconds ∧
    (iterFramesList v interval_seconds).map SampledFrame.index =
      (List.range ((v.numFrames + strideOf v interval_seconds - 1) /
        strideOf v interval_seconds)).map (fun j => j * strideOf v interval_seconds) ∧
    List.Pairwise (fun a b => a < b)
      ((iterFramesList v interval_seconds).map SampledFrame.index) ∧
    ∀ f ∈ iterFramesList v interval_seconds, f.index < v.numFrames := by
  obtain ⟨S, hSdef, hS⟩ : ∃ S, strideOf v interval_seconds = S ∧ 1 ≤ S :=
    ⟨_, rfl, strideOf_pos _ _⟩
  have hlist := iterFramesList_eq v interval_seconds h₁ h₂
  rw [hSdef] at hlist
  rw [hSdef, hlist]
  refine ⟨?_, ?_, ?_, ?_⟩
  · simp [closedSamples]
  · simp [closedSamples, List.map_map, Function.comp, mkSample]
  · have hmap : (closedSamples v S 0).map SampledFrame.index =
        (List.range ((v.numFrames + S - 1) / S)).map (fun j => j * S) := by
      simp [closedSamples, List.map_map, Function.comp, mkSample]
    rw [hmap]
    exact List.Pairwise.map _
      (fun a b hab => (mul_lt_mul_right (show 0 < S by omega)).mpr hab)
      (List.pairwise_lt_range _)
  · intro f hf
    simp only [closedSamples, List.mem_map, List.mem_range] at hf
    obtain ⟨j, hj, rfl⟩ := hf
    have hc1 : 1 ≤ (v.numFrames - 0 + S - 1) / S := by omega
    have hmul0 : 1 * S ≤ ((v.numFrames - 0 + S - 1) / S) * S :=
      mul_le_mul_right' hc1 S
    have hmul1 : (j + 1) * S ≤ ((v.numFrames - 0 + S - 1) / S) * S :=
      mul_le_mul_right' (Nat.succ_le_of_lt hj) S
    have hmul2 : ((v.numFrames - 0 + S - 1) / S) * S ≤ v.numFrames - 0 + S - 1 :=
      Nat.div_mul_le_self _ _
    have hexp : (j + 1) * S = j * S + S := Nat.succ_mul _ _
    simp only [mkSample]
    omega

/-- Concrete check of `iter_frames_yields` on the spec's scenario:
20 frames at 2 fps, interval 1 s, stride 2 — ten samples 0,2,…,18. -/
theorem iter_frames_yields_witness :
    vDemo.openable = true ∧ (0 : ℚ) < vDemo.fps ∧
    ((iterFramesList vDemo 1).length =
      (vDemo.numFrames + strideOf vDemo 1 - 1) / strideOf vDemo 1 ∧
    (iterFramesList vDemo 1).map SampledFrame.index =
      (List.range ((vDemo.numFrames + strideOf vDemo 1 - 1) / strideOf vDemo 1)).map
        (fun j => j * strideOf vDemo 1) ∧
    List.Pairwise (fun a b => a < b) ((iterFramesList vDemo 1).map SampledFrame.index) ∧
    ∀ f ∈ iterFramesList vDemo 1, f.index < vDemo.numFrames) :=
  ⟨rfl, by decide, iter_frames_yields vDemo 1 rfl (by decide)⟩

/-- Claim C7: every element the sampler yields carries
`timestamp = index / native_frame_rate`. -/
theorem sampled_timestamp (v : Video) (interval_seconds : ℚ)
    (h₁ : v.openable = true) (h₂ : 0 < v.fps) :
    ∀ f ∈ iterFramesList v interval_seconds,
      f.timestamp = (f.index : ℚ) / v.fps := by
  intro f hf
  rw [iterFramesList_eq v interval_seconds h₁ h₂] at hf
  simp only [closedSamples, List.mem_map, List.mem_range] at hf
  obtain ⟨j, _, rfl⟩ := hf
  rfl

/-- Concrete check of `sampled_timestamp` on the 2 fps demo source. -/
theorem sampled_timestamp_witness :
    vSmall.openable = true ∧ (0 : ℚ) < vSmall.fps ∧
    ∀ f ∈ iterFramesList vSmall 1, f.timestamp = (f.index : ℚ) / vSmall.fps :=
  ⟨rfl, by decide, sampled_timestamp vSmall 1 rfl (by decide)⟩

/-- Claim C6: opening fails with a `ValueError` exactly when the
source cannot be opened or the native frame rate is ≤ 0; in that case
the pipeline run aborts before any description is attempted — zero
records, zero describer calls. -/
theorem source_unavailable_spec (v : Video) (interval_seconds : ℚ)
    (fn : Nat → Except String String) (fuel : Nat) :
    ((∃ e s', pullIter v interval_seconds iterStart = (.error e, s')) ↔
      (v.openable = false ∨ v.fps ≤ 0)) ∧
    (v.openable = false →
      (runPipe v interval_seconds fn (fuel + 1) pipelineStart).1 =
        ⟨[], [], .samplerErr .cannotOpen⟩) ∧
    (v.openable = true → v.fps ≤ 0 →
      (runPipe v interval_seconds fn (fuel + 1) pipelineStart).1 =
        ⟨[], [], .samplerErr .fpsUndetermined⟩) := by
  refine ⟨⟨?_, ?_⟩, ?_, ?_⟩
  · rintro ⟨e, s', hp⟩
    by_cases ho : v.openable = false
    · exact Or.inl ho
    · have ho' : v.openable = true := by
        cases hov : v.openable
        · exact absurd hov ho
        · rfl
      by_cases hf : v.fps ≤ 0
      · exact Or.inr hf
      · exfalso
        simp [pullIter, iterStart, ho', hf] at hp
  · rintro (ho | hf)
    · exact ⟨.cannotOpen, ⟨.finished, true, false⟩, by simp [pullIter, iterStart, ho]⟩
    · by_cases ho : v.openable = false
      · exact ⟨.cannotOpen, ⟨.finished, true, false⟩, by simp [pullIter, iterStart, ho]⟩
      · have ho' : v.openable = true := by
          cases hov : v.openable
          · exact absurd hov ho
          · rfl
        exact ⟨.fpsUndetermined, ⟨.finished, true, false⟩,
          by simp [pullIter, iterStart, ho', hf]⟩
  · intro ho
    have hpull : pullIter v interval_seconds iterStart =
        (.error .cannotOpen, ⟨.finished, true, false⟩) := by
      simp [pullIter, iterStart, ho]
    simp only [runPipe, pullPipe, pipelineStart, hpull]
    rfl
  · intro ho hf
    have hpull : pullIter v interval_seconds iterStart =
        (.error .fpsUndetermined, ⟨.finished, true, false⟩) := by
      simp [pullIter, iterStart, ho, hf]
    simp only [runPipe, pullPipe, pipelineStart, hpull]
    rfl

/-- Concrete check of `source_unavailable_spec`: an unopenable path
aborts the run with zero records and zero describer calls. -/
theorem source_unavailable_witness :
    (runPipe vBad 1 fnOk 2 pipelineStart).1 = ⟨[], [], .samplerErr .cannotOpen⟩ :=
  (source_unavailable_spec vBad 1 fnOk 1).2.1 rfl

/-- Claim C10: calling the generator functions does no work — at
creation the capture has not been opened or validated and no describer
call has been made; for an unopenable path the failure surfaces only
at the first pull (which is also when the open is attempted). -/
theorem generator_lazy (v : Video) (interval_seconds : ℚ)
    (fn : Nat → Except String String) (h : v.openable = false) :
    pipelineStart.inner.openAttempted = false ∧
    iterStart.openAttempted = false ∧
    (pullPipe v interval_seconds fn pipelineStart).event = .samplerErr .cannotOpen ∧
    (pullPipe v interval_seconds fn pipelineStart).state.inner.openAttempted = true ∧
    (pullPipe v interval_seconds fn pipelineStart).call = none := by
  refine ⟨rfl, rfl, ?_, ?_, ?_⟩ <;>
    simp [pullPipe, pullIter, pipelineStart, iterStart, h]

/-- Concrete check of `generator_lazy` on the unopenable source. -/
theorem generator_lazy_witness :
    pipelineStart.inner.openAttempted = false ∧
    iterStart.openAttempted = false ∧
    (pullPipe vBad 1 fnOk pipelineStart).event = .samplerErr .cannotOpen ∧
    (pullPipe vBad 1 fnOk pipelineStart).state.inner.openAttempted = true ∧
    (pullPipe vBad 1 fnOk pipelineStart).call = none :=
  generator_lazy vBad 1 fnOk rfl

/-- Claim C5 is violated by the code: `capture.release()` (line 42)
sits after the `while` loop with no `try/finally`, so when the
consumer abandons iteration after the first record, and likewise when
the describer fails, the generators are torn down at the `yield` and
the capture is never released; only the normal-completion path
releases it. -/
theorem release_skipped_on_abandonment :
    (closePipe (pullPipe vSmall 1 fnOk pipelineStart).state).inner.released = false ∧
    (pullPipe vSmall 1 fnOk pipelineStart).state.pc = PipePC.suspended ∧
    (closePipe (pullPipe vSmall 1 fnOk pipelineStart).state).pc = PipePC.finished ∧
    (pullPipe vSmall 1 fnFail0 pipelineStart).event = .describeErr "boom" ∧
    (pullPipe vSmall 1 fnFail0 pipelineStart).state.inner.released = false ∧
    (pullPipe vSmall 1 fnFail0 pipelineStart).state.inner.pc = IterPC.finished ∧
    (runPipe vSmall 1 fnOk 4 pipelineStart).2.inner.released = true := by
  decide

/-- Claim C4: in a run where every describer call succeeds, the
describer is called exactly once per sampled frame, synchronously in
sampling order (no frame skipped, none described twice), and each call
yields exactly one record whose index and timestamp are copied
unchanged from the originating sample.  (Runs where a call fails are
covered by `pipeline_fail_kth`.) -/
theorem pipeline_describe_each (v : Video) (interval_seconds : ℚ)
    (fn : Nat → Except String String) (g : Nat → String)
    (h₁ : v.openable = true) (h₂ : 0 < v.fps)
    (hok : ∀ f ∈ iterFramesList v interval_seconds,
      fn f.frame = Except.ok (g f.frame)) :
    (runPipe v interval_seconds fn (v.numFrames + 1) pipelineStart).1.calls =
      iterFramesList v interval_seconds ∧
    (runPipe v interval_seconds fn (v.numFrames + 1) pipelineStart).1.descs =
      (iterFramesList v interval_seconds).map
        (fun f => ⟨f.index, f.timestamp, g f.frame⟩) ∧
    (runPipe v interval_seconds fn (v.numFrames + 1) pipelineStart).1.event =
      PipeEvent.stopped := by
  have hrun := runPipe_start v interval_seconds fn h₁ h₂
  have hpf := processFrames_all_ok fn g (iterFramesList v interval_seconds) hok
  rw [hrun, hpf]
  exact ⟨rfl, rfl, rfl⟩

/-- Concrete check of `pipeline_describe_each` on the 20-frame demo:
ten calls, ten records, indices and timestamps preserved. -/
theorem pipeline_describe_each_witness :
    (∀ f ∈ iterFramesList vDemo 1, fnOk f.frame = Except.ok (gOk f.frame)) ∧
    (runPipe vDemo 1 fnOk (vDemo.numFrames + 1) pipelineStart).1.calls =
      iterFramesList vDemo 1 ∧
    (runPipe vDemo 1 fnOk (vDemo.numFrames + 1) pipelineStart).1.descs =
      (iterFramesList vDemo 1).map (fun f => ⟨f.index, f.timestamp, gOk f.frame⟩) ∧
    (runPipe vDemo 1 fnOk (vDemo.numFrames + 1) pipelineStart).1.event =
      PipeEvent.stopped := by
  have h := pipeline_describe_each vDemo 1 fnOk gOk rfl (by decide) (by decide)
  exact ⟨by decide, h.1, h.2.1, h.2.2⟩

/-- Claim C3: if the describer succeeds on the first `k - 1` sampled
frames and fails on the `k`-th, the pipeline has yielded exactly
`k - 1` records (which keep their values), the failure propagates
upward immediately, and no further frame is sampled or described —
exactly `k` frames ever reach the describer. -/
theorem pipeline_fail_kth (v : Video) (interval_seconds : ℚ)
    (fn : Nat → Except String String) (g : Nat → String) (e : String) (k : Nat)
    (h₁ : v.openable = true) (h₂ : 0 < v.fps) (hk : 1 ≤ k)
    (hklen : k - 1 < (iterFramesList v interval_seconds).length)
    (hsucc : ∀ f ∈ (iterFramesList v interval_seconds).take (k - 1),
      fn f.frame = Except.ok (g f.frame))
    (hfail : fn ((iterFramesList v interval_seconds).get ⟨k - 1, hklen⟩).frame =
      Except.error e) :
    (runPipe v interval_seconds fn (v.numFrames + 1) pipelineStart).1.descs =
      ((iterFramesList v interval_seconds).take (k - 1)).map
        (fun f => ⟨f.index, f.timestamp, g f.frame⟩) ∧
    (runPipe v interval_seconds fn (v.numFrames + 1) pipelineStart).1.descs.length =
      k - 1 ∧
    (runPipe v interval_seconds fn (v.numFrames + 1) pipelineStart).1.event =
      PipeEvent.describeErr e ∧
    (runPipe v interval_seconds fn (v.numFrames + 1) pipelineStart).1.calls =
      (iterFramesList v interval_seconds).take k := by
  have hrun := runPipe_start v interval_seconds fn h₁ h₂
  have hsplit : iterFramesList v interval_seconds =
      (iterFramesList v interval_seconds).take (k - 1) ++
        ((iterFramesList v interval_seconds).get ⟨k - 1, hklen⟩ ::
          (iterFramesList v interval_seconds).drop k) := by
    conv_lhs => rw [← List.take_append_drop (k - 1) (iterFramesList v interval_seconds)]
    congr 1
    rw [List.drop_eq_getElem_cons hklen]
    congr 2
    omega
  have hres : processFrames fn (iterFramesList v interval_seconds) =
      ⟨((iterFramesList v interval_seconds).take (k - 1)).map
          (fun f => ⟨f.index, f.timestamp, g f.frame⟩),
        (iterFramesList v interval_seconds).take (k - 1) ++
          [(iterFramesList v interval_seconds).get ⟨k - 1, hklen⟩],
        .describeErr e⟩ := by
    conv_lhs => rw [hsplit]
    rw [processFrames_ok_append fn g _ _ hsucc]
    simp only [processFrames]
    rw [hfail]
    simp
  rw [hrun, hres]
  refine ⟨rfl, ?_, rfl, ?_⟩
  · simp only [List.length_map, List.length_take, Nat.min_def]
    split_ifs <;> omega
  · have hcat := List.take_concat_get (iterFramesList v interval_seconds) (k - 1) hklen
    rw [List.concat_eq_append] at hcat
    have hgoal : (iterFramesList v interval_seconds).take (k - 1) ++
        [(iterFramesList v interval_seconds).get ⟨k - 1, hklen⟩] =
        (iterFramesList v interval_seconds).take (k - 1 + 1) := hcat
    show (iterFramesList v interval_seconds).take (k - 1) ++
        [(iterFramesList v interval_seconds).get ⟨k - 1, hklen⟩] =
      (iterFramesList v interval_seconds).take k
    rw [hgoal]
    congr 1
    omega

/-- Concrete check of `pipeline_fail_kth`: on the 3-frame source a
describer failing on the second call leaves exactly one record, the
error propagates, and exactly two frames were ever described. -/
theorem pipeline_fail_kth_witness :
    (runPipe vSmall 1 fnFail1 (vSmall.numFrames + 1) pipelineStart).1.descs.length = 1 ∧
    (runPipe vSmall 1 fnFail1 (vSmall.numFrames + 1) pipelineStart).1.event =
      PipeEvent.describeErr "boom" ∧
    (runPipe vSmall 1 fnFail1 (vSmall.numFrames + 1) pipelineStart).1.calls =
      (iterFramesList vSmall 1).take 2 := by
  have h := pipeline_fail_kth vSmall 1 fnFail1 gOk "boom" 2 rfl (by decide)
    (by decide) (by decide) (by decide) (by decide)
  exact ⟨h.2.1, h.2.2.1, h.2.2.2⟩

/-- Claim C8 counterexample: the very first frame (index 0,
timestamp 0.0) is printed as `Frame 0 (@ 0.0s): …`, not with the
two-decimal timestamp `0.00` the claim requires. -/
theorem frameLine_not_two_decimals :
    frameLine ⟨0, 0, "a cat"⟩ = "Frame 0 (@ 0.0s): a cat" ∧
    frameLineSpec ⟨0, 0, "a cat"⟩ = "Frame 0 (@ 0.00s): a cat" ∧
    frameLine ⟨0, 0, "a cat"⟩ ≠ frameLineSpec ⟨0, 0, "a cat"⟩ := by
  decide

/-- Claim C8 amended: for every successfully described frame the tool
emits exactly one line `Frame <index> (@ <timestamp>s): <description>`
where the timestamp is `round(t, 2)` rendered in Python's shortest
float form (trailing zeros dropped, at least one decimal digit), and
the lines are emitted incrementally: after `k` pipeline pulls exactly
the first `k` lines have been printed. -/
theorem main_output_spec (v : Video) (interval_seconds : ℚ)
    (fn : Nat → Except String String) (g : Nat → String)
    (h₁ : v.openable = true) (h₂ : 0 < v.fps)
    (hok : ∀ f ∈ iterFramesList v interval_seconds,
      fn f.frame = Except.ok (g f.frame)) :
    main_output v interval_seconds fn (v.numFrames + 1) =
      (iterFramesList v interval_seconds).map (fun f =>
        "Frame " ++ toString f.index ++ " (@ " ++ formatTimestamp f.timestamp ++
          "s): " ++ g f.frame) ∧
    ∀ k ≤ (iterFramesList v interval_seconds).length,
      main_output v interval_seconds fn k =
        (main_output v interval_seconds fn (v.numFrames + 1)).take k := by
  have hrun := runPipe_start v interval_seconds fn h₁ h₂
  have hpf := processFrames_all_ok fn g (iterFramesList v interval_seconds) hok
  have hfirst : main_output v interval_seconds fn (v.numFrames + 1) =
      (iterFramesList v interval_seconds).map (fun f =>
        "Frame " ++ toString f.index ++ " (@ " ++ formatTimestamp f.timestamp ++
          "s): " ++ g f.frame) := by
    unfold main_output
    rw [hrun, hpf]
    simp [frameLine, List.map_map, Function.comp]
  refine ⟨hfirst, ?_⟩
  intro k hk
  have hok' : ∀ x ∈ closedSamples v (strideOf v interval_seconds) 0,
      fn x.frame = Except.ok (g x.frame) := by
    intro x hx
    exact hok x (by rw [iterFramesList_eq v interval_seconds h₁ h₂]; exact hx)
  have hk' : k ≤ (closedSamples v (strideOf v interval_seconds) 0).length := by
    rw [← iterFramesList_eq v interval_seconds h₁ h₂]
    exact hk
  rw [hfirst]
  unfold main_output
  rw [runPipe_take_start v interval_seconds fn g h₁ h₂ hok' k hk']
  rw [iterFramesList_eq v interval_seconds h₁ h₂]
  simp only [List.map_take, List.map_map]
  exact congrArg (List.take k)
    (List.map_congr_left (fun x _ => by simp [frameLine, Function.comp]))

/-- Concrete check of `main_output_spec` on the 3-frame demo source. -/
theorem main_output_spec_witness :
    (∀ f ∈ iterFramesList vSmall 1, fnOk f.frame = Except.ok (gOk f.frame)) ∧
    (main_output vSmall 1 fnOk (vSmall.numFrames + 1) =
      (iterFramesList vSmall 1).map (fun f =>
        "Frame " ++ toString f.index ++ " (@ " ++ formatTimestamp f.timestamp ++
          "s): " ++ gOk f.frame) ∧
    ∀ k ≤ (iterFramesList vSmall 1).length,
      main_output vSmall 1 fnOk k =
        (main_output vSmall 1 fnOk (vSmall.numFrames + 1)).take k) :=
  ⟨by decide, main_output_spec vSmall 1 fnOk gOk rfl (by decide) (by decide)⟩

/-- Claim C9 counterexample: the default prompt is the Portuguese
sentence of lines 73 and 113, not the English text the claim names. -/
theorem default_prompt_counterexample :
    describe_video_frames_prompt none ≠ "describe the image concisely" ∧
    describe_video_frames_prompt none = "Descreva a imagem de forma concisa." ∧
    parse_args_prompt_default ≠ "describe the image concisely" := by
  decide

/-- Claim C9 amended: on the CLI, `interval` defaults to 1.0; on both
the CLI surface and `describe_video_frames`, the prompt defaults to
the fixed text "Descreva a imagem de forma concisa." and the model to
the fixed identifier "gpt-4.1-mini" (`interval_seconds` itself has no
default in `describe_video_frames`; explicit arguments are passed
through unchanged). -/
theorem defaults_spec :
    parse_args_interval_default = 1 ∧
    parse_args_prompt_default = "Descreva a imagem de forma concisa." ∧
    parse_args_model_default = "gpt-4.1-mini" ∧
    describe_video_frames_prompt none = parse_args_prompt_default ∧
    describe_video_frames_model none = parse_args_model_default ∧
    (∀ p, describe_video_frames_prompt (some p) = p) ∧
    (∀ m, describe_video_frames_model (some m) = m) :=
  ⟨rfl, rfl, rfl, rfl, rfl, fun _ => rfl, fun _ => rfl⟩

end VideoFrameDescriber
